import Mathlib

/-!
Verification of the live voice-translation client (`src/components/CallInterface.tsx`)
and its Convex backend (`convex/transcripts.ts`, `convex/calls.ts`, `convex/realtime.ts`).

The TypeScript source is shallowly embedded: JSON values are an inductive type,
JavaScript `null`/`undefined` results are `Option`, the React refs and state
hooks of the call component become fields of explicit state records, and each
event handler becomes a pure state-transition function.  JavaScript numbers that
the code only ever treats as integral millisecond timestamps are modelled as
`Int` (with `Int.fdiv` for `Math.floor` of a division).
-/

namespace LiveVoice

/-- Model of a parsed JSON value (the result of a successful `JSON.parse`). -/
inductive Json where
  | null
  | bool (b : Bool)
  | num (n : Int)
  | str (s : String)
  | arr (elems : List Json)
  | obj (fields : List (String × Json))

/-- Property access `j[k]` as JavaScript performs it on a parsed JSON value:
objects yield the named field (`none` = `undefined` when absent), and arrays or
primitives yield `undefined` for any non-index key such as `"type"`. -/
def Json.getProp : Json → String → Option Json
  | .obj fields, k => fields.lookup k
  | _, _ => none

/-- Mirror of `isRecord` (CallInterface.tsx line 11): `typeof value === "object"
&& value !== null`.  JavaScript arrays also satisfy this test. -/
def isRecord : Json → Bool
  | .obj _ => true
  | .arr _ => true
  | _ => false

/-- Read property `k` of `j` when it holds a string (`typeof x === "string"`). -/
def Json.getStr (j : Json) (k : String) : Option String :=
  match j.getProp k with
  | some (.str s) => some s
  | _ => none

/-- Read property `k` of `j` when it holds a number. -/
def Json.getNum (j : Json) (k : String) : Option Int :=
  match j.getProp k with
  | some (.num n) => some n
  | _ => none

/-- Data arriving on the signaling data channel (`event.data`).  The channel
delivers either a non-string payload or a string; for a string we carry the
outcome of the platform primitive `JSON.parse` directly (`none` = the parse
threw on invalid JSON text). -/
inductive WireData where
  | binary
  | text (parsed : Option Json)

/-- Mirror of `parseRealtimeMessage` (CallInterface.tsx lines 14-28): the parse
result must be a record with a string `type` property, otherwise `null`. -/
def parseRealtimeMessage : Option Json → Option Json
  | none => none
  | some j =>
    if isRecord j then
      match j.getProp "type" with
      | some (.str _) => some j
      | _ => none
    else none

/-- The in-memory not-yet-finalized utterance (`partialTranscript` React state,
CallInterface.tsx lines 55-58). -/
structure PartialEntry where
  text : String
  timestamp : Int
deriving DecidableEq, Repr

/-- One finalized transcript row of the `transcripts` React state
(CallInterface.tsx lines 49-54). -/
structure TranscriptEntry where
  originalText : String
  timestamp : Int
deriving DecidableEq, Repr

/-- The argument record the component passes to the `addTranscript` mutation
(besides the fixed `callId`), CallInterface.tsx lines 432-436 and 512-516. -/
structure AddTranscriptCall where
  originalText : String
  timestamp : Int
deriving DecidableEq, Repr

/-- State touched by the data-channel message handler: the `partialTranscript`
and `transcripts` React states, the `outputTranscriptRef` /
`outputTranscriptResponseIdRef` refs, and the log of issued `addTranscript`
persistence calls. -/
structure ClassifierState where
  partialEntry : Option PartialEntry
  outputTranscript : String
  outputTranscriptResponseId : Option String
  transcripts : List TranscriptEntry
  addTranscriptCalls : List AddTranscriptCall
deriving DecidableEq, Repr

/-- The component's initial state: empty refs and empty lists. -/
def ClassifierState.initial : ClassifierState :=
  ⟨none, "", none, [], []⟩

/-- Mirror of the `response_id` extraction (CallInterface.tsx lines 375-379 and
396-400): `(typeof payload.response_id === "string" && payload.response_id) ||
(typeof response?.id === "string" ? response.id : null)`.  An empty
`response_id` string is falsy in JavaScript, so `||` falls through to
`response.id`; a non-record `response` yields `null`. -/
def extractResponseId (payload : Json) : Option String :=
  match payload.getStr "response_id" with
  | some s => if s = "" then fallbackId payload else some s
  | none => fallbackId payload
where
  fallbackId (payload : Json) : Option String :=
    match payload.getProp "response" with
    | some r => if isRecord r then r.getStr "id" else none
    | _ => none

/-- Branch for `response.output_text.delta` / `input_audio_transcript.delta`
(CallInterface.tsx lines 345-367): a non-empty string `delta` is appended to the
partial transcript, which keeps its first-fragment timestamp. -/
def handleTextDelta (st : ClassifierState) (payload : Json) (now : Int) :
    ClassifierState :=
  let deltaText := (payload.getStr "delta").getD ""
  if deltaText = "" then st
  else
    match st.partialEntry with
    | none => { st with partialEntry := some ⟨deltaText, now⟩ }
    | some prev =>
      { st with partialEntry := some ⟨prev.text ++ deltaText, prev.timestamp⟩ }

/-- Branch for `response.output_audio_transcript.delta` (CallInterface.tsx
lines 369-393): a truthy response id differing from the currently accumulating
one resets the buffer; the delta is appended and mirrored into the partial
transcript with the current wall-clock time. -/
def handleAudioDelta (st : ClassifierState) (payload : Json) (now : Int) :
    ClassifierState :=
  let deltaText := (payload.getStr "delta").getD ""
  if deltaText = "" then st
  else
    let responseId := extractResponseId payload
    let st1 :=
      match responseId with
      | some rid =>
        if rid ≠ "" ∧ st.outputTranscriptResponseId ≠ some rid then
          { st with outputTranscriptResponseId := some rid,
                    outputTranscript := "" }
        else st
      | none => st
    let buf := st1.outputTranscript ++ deltaText
    { st1 with outputTranscript := buf, partialEntry := some ⟨buf, now⟩ }

/-- Branch for `response.output_audio_transcript.done` (CallInterface.tsx lines
395-438): prefer an inline `transcript` string, then an inline `text` string
(nullish coalescing, so an inline empty string is kept), else the accumulated
buffer; both refs are cleared; a falsy final text produces nothing, otherwise
exactly one transcript entry and one `addTranscript` call. -/
def handleAudioDone (st : ClassifierState) (payload : Json) (now : Int) :
    ClassifierState :=
  let responseId := extractResponseId payload
  let st1 :=
    match responseId with
    | some rid =>
      if rid ≠ "" ∧ st.outputTranscriptResponseId ≠ some rid then
        { st with outputTranscriptResponseId := some rid }
      else st
    | none => st
  let transcriptText := payload.getStr "transcript"
  let textValue := payload.getStr "text"
  let finalText :=
    match transcriptText with
    | some s => s
    | none =>
      match textValue with
      | some s => s
      | none => st1.outputTranscript
  let st2 := { st1 with outputTranscript := "",
                        outputTranscriptResponseId := none }
  if finalText = "" then st2
  else
    { st2 with
      partialEntry := none,
      transcripts := st2.transcripts ++ [⟨finalText, now⟩],
      addTranscriptCalls := st2.addTranscriptCalls ++ [⟨finalText, now⟩] }

/-- Mirror of the content-part mapper (CallInterface.tsx lines 450-473): a
record part with a truthy `text` contributes it when its `type` is one of the
recognized text kinds or is itself falsy. -/
def partToText (part : Json) : Option String :=
  if isRecord part then
    match part.getStr "text" with
    | none => none
    | some t =>
      if t = "" then none
      else
        let ok :=
          match part.getStr "type" with
          | none => true
          | some ty =>
            ty = "" ∨ ty = "input_text" ∨ ty = "output_text" ∨
            ty = "output_audio_transcript" ∨ ty = "input_audio_transcript" ∨
            ty = "text"
        if ok then some t else none
  else none

/-- Model of JavaScript `String.prototype.trim`: strip whitespace characters
from both ends (expressed on the character list so it computes by
reduction). -/
def jsTrim (s : String) : String :=
  ⟨((s.data.dropWhile Char.isWhitespace).reverse.dropWhile
      Char.isWhitespace).reverse⟩

/-- Mirror of the item text assembly (CallInterface.tsx lines 449-476):
map the content parts, drop the nulls, join with a space, trim. -/
def itemText (item : Json) : String :=
  let contentParts :=
    match item.getProp "content" with
    | some (.arr xs) => xs
    | _ => []
  jsTrim (String.intercalate " " (contentParts.filterMap partToText))

/-- The `conversation.item.added` / `conversation.item.done` tail of the
handler (CallInterface.tsx lines 444-517), reached for every payload whose type
matched none of the earlier branches.  Requires a record `item`; `added` seeds
the partial transcript; `done` finalizes one entry, timestamped from a numeric
`item.created_at` (seconds, scaled by 1000) when present, else `now`. -/
def handleItemTail (st : ClassifierState) (ty : String) (payload : Json)
    (now : Int) : ClassifierState :=
  match payload.getProp "item" with
  | some item =>
    if isRecord item then
      let text := itemText item
      if ty = "conversation.item.added" then
        if text = "" then st
        else { st with partialEntry := some ⟨text, now⟩ }
      else if ty ≠ "conversation.item.done" then st
      else if text = "" then st
      else
        let eventTimestamp :=
          match item.getNum "created_at" with
          | some n => n * 1000
          | none => now
        { st with
          partialEntry := none,
          transcripts := st.transcripts ++ [⟨text, eventTimestamp⟩],
          addTranscriptCalls :=
            st.addTranscriptCalls ++ [⟨text, eventTimestamp⟩] }
    else st
  | none => st

/-- Dispatch on the payload's `type`, in the source's branch order
(CallInterface.tsx lines 345-517).  `response.output_audio.delta` is explicitly
ignored; every other unmatched type falls through to the item tail, which
mutates nothing unless the type is one of the two `conversation.item.*` kinds. -/
def handlePayload (st : ClassifierState) (payload : Json) (now : Int) :
    ClassifierState :=
  match payload.getProp "type" with
  | some (.str ty) =>
    if ty = "response.output_text.delta" ∨ ty = "input_audio_transcript.delta"
    then handleTextDelta st payload now
    else if ty = "response.output_audio_transcript.delta" then
      handleAudioDelta st payload now
    else if ty = "response.output_audio_transcript.done" then
      handleAudioDone st payload now
    else if ty = "response.output_audio.delta" then st
    else handleItemTail st ty payload now
  | _ => st

/-- The whole `dataChannel.onmessage` handler (CallInterface.tsx lines
332-517): non-string data is ignored, then `parseRealtimeMessage` filters, then
the payload is dispatched. -/
def handleMessage (st : ClassifierState) (d : WireData) (now : Int) :
    ClassifierState :=
  match d with
  | .binary => st
  | .text parsed =>
    match parseRealtimeMessage parsed with
    | none => st
    | some payload => handlePayload st payload now

/-- A `response.output_audio_transcript.delta` message carrying response id
`rid` and fragment `d`, as produced by the realtime service. -/
def audioDelta (rid d : String) : Json :=
  .obj [("type", .str "response.output_audio_transcript.delta"),
        ("response_id", .str rid), ("delta", .str d)]

/-- A `response.output_audio_transcript.done` message for response id `rid`
that carries no inline `transcript` or `text` of its own. -/
def audioDone (rid : String) : Json :=
  .obj [("type", .str "response.output_audio_transcript.done"),
        ("response_id", .str rid)]

/-- A well-formed inbound string message whose JSON parse yields `j`. -/
def wire (j : Json) : WireData := .text (some j)

/-- The `conversation.item.done` message of property P7: an assistant item
whose content is `[{type: "output_text", text: "Hola"}]`. -/
def holaDoneMessage : Json :=
  .obj [("type", .str "conversation.item.done"),
        ("item", .obj
          [("role", .str "assistant"),
           ("content", .arr
             [.obj [("type", .str "output_text"), ("text", .str "Hola")]])])]

/-! ### Convex argument validation

`convex/transcripts.ts` declares the `addTranscript` mutation with an argument
validator (`args: {...}` of `v.*` combinators).  The Convex runtime checks the
client-supplied argument object against it before running the handler: every
required field must be present with a matching type, optional fields may be
absent, and any field outside the declared set is rejected. -/

/-- A Convex value as sent by the client (only the kinds this app uses). -/
inductive CValue where
  | vid (table : String) (docId : Nat)
  | vstr (s : String)
  | vnum (n : Int)
deriving DecidableEq, Repr

/-- A Convex validator combinator (`v.id`, `v.string`, `v.number`,
`v.literal`, a two-way `v.union`). -/
inductive CValidator where
  | idOf (table : String)
  | vstring
  | vnumber
  | literal (s : String)
  | union2 (a b : CValidator)

/-- Whether a value satisfies a validator. -/
def CValue.matchesValidator : CValue → CValidator → Bool
  | .vid t _, .idOf t2 => t = t2
  | .vstr _, .vstring => true
  | .vnum _, .vnumber => true
  | .vstr s, .literal l => s = l
  | v, .union2 a b => v.matchesValidator a || v.matchesValidator b
  | _, _ => false

/-- One declared argument field: its name, validator, and optionality. -/
structure ArgSpec where
  name : String
  validator : CValidator
  optional : Bool

/-- Convex argument validation: each declared field is present and matching
(or optional and absent), and no undeclared field appears. -/
def validateArgs (spec : List ArgSpec) (args : List (String × CValue)) : Bool :=
  spec.all (fun f =>
    match args.lookup f.name with
    | some v => v.matchesValidator f.validator
    | none => f.optional) &&
  args.all (fun kv => spec.any (fun f => f.name = kv.fst))

/-- The declared argument validator of the `addTranscript` mutation
(convex/transcripts.ts lines 6-14). -/
def addTranscriptArgSpec : List ArgSpec :=
  [⟨"callId", .idOf "calls", false⟩,
   ⟨"speaker", .union2 (.literal "user") (.literal "other"), false⟩,
   ⟨"originalText", .vstring, false⟩,
   ⟨"originalLanguage", .vstring, false⟩,
   ⟨"translatedText", .vstring, false⟩,
   ⟨"translatedLanguage", .vstring, false⟩,
   ⟨"confidence", .vnumber, true⟩]

/-- The argument object the call component actually sends with each
`addTranscript` invocation (CallInterface.tsx lines 432-436 and 512-516):
`{callId, originalText, timestamp}`. -/
def clientAddTranscriptArgs (callId : Nat) (c : AddTranscriptCall) :
    List (String × CValue) :=
  [("callId", .vid "calls" callId),
   ("originalText", .vstr c.originalText),
   ("timestamp", .vnum c.timestamp)]

/-! ### Convex database model

The backend mutations of `convex/calls.ts` and `convex/transcripts.ts`, over an
explicit document store.  A mutation that throws leaves the database unchanged
(Convex mutations are transactional), which the embedding renders by returning
`Except.error` without a new state. -/

/-- A document of the `calls` table, with the fields `startCall` inserts and
`endCall` / `updateCallSummary` patch. -/
structure CallDoc where
  id : Nat
  userId : String
  title : String
  summaryText : String
  primaryLanguage : String
  secondaryLanguage : String
  duration : Int
  status : String
  startedAt : Int
  endedAt : Option Int
  summary : Option String
  keyPoints : Option (List String)
  actionItems : Option (List String)
deriving DecidableEq, Repr

/-- A document of the `transcripts` table, with the fields the `addTranscript`
handler inserts (convex/transcripts.ts lines 26-36). -/
structure TranscriptDoc where
  callId : Nat
  userId : String
  timestamp : Int
  speaker : String
  originalText : String
  originalLanguage : String
  translatedText : String
  translatedLanguage : String
  confidence : Option Int
deriving DecidableEq, Repr

/-- The document store: the two tables and a fresh-id counter. -/
structure DB where
  nextId : Nat
  calls : List CallDoc
  transcripts : List TranscriptDoc
deriving DecidableEq, Repr

/-- The empty deployment state. -/
def DB.empty : DB := ⟨0, [], []⟩

/-- Mirror of `ctx.db.get(callId)` on the `calls` table. -/
def DB.getCall (db : DB) (callId : Nat) : Option CallDoc :=
  db.calls.find? (fun c => c.id = callId)

/-- The non-fixed arguments of `addTranscript` as its validator declares them. -/
structure AddTranscriptArgs where
  callId : Nat
  speaker : String
  originalText : String
  originalLanguage : String
  translatedText : String
  translatedLanguage : String
  confidence : Option Int
deriving DecidableEq, Repr

/-- Handler of the `addTranscript` mutation (convex/transcripts.ts lines
15-37): requires an authenticated user who owns the referenced call, then
inserts a transcript document stamped with that user id and `Date.now()`. -/
def addTranscriptMutation (auth : Option String) (args : AddTranscriptArgs)
    (now : Int) (db : DB) : Except String (DB × Nat) :=
  match auth with
  | none => .error "Not authenticated"
  | some userId =>
    match db.getCall args.callId with
    | none => .error "Call not found or unauthorized"
    | some call =>
      if call.userId = userId then
        .ok ({ db with
                nextId := db.nextId + 1,
                transcripts := db.transcripts ++
                  [⟨args.callId, userId, now, args.speaker, args.originalText,
                    args.originalLanguage, args.translatedText,
                    args.translatedLanguage, args.confidence⟩] },
             db.nextId)
      else .error "Call not found or unauthorized"

/-- Handler of the `startCall` mutation (convex/calls.ts lines 6-30): requires
an authenticated user and inserts an `active` call owned by that user. -/
def startCallMutation (auth : Option String)
    (primaryLanguage secondaryLanguage : String) (now : Int) (db : DB) :
    Except String (DB × Nat) :=
  match auth with
  | none => .error "Not authenticated"
  | some userId =>
    let title := primaryLanguage ++ " ↔ " ++ secondaryLanguage ++ " Call"
    .ok ({ db with
            nextId := db.nextId + 1,
            calls := db.calls ++
              [⟨db.nextId, userId, title, title, primaryLanguage,
                secondaryLanguage, 0, "active", now, none, none, none, none⟩] },
         db.nextId)

/-- Replace the call with id `callId` by `f` applied to it (`ctx.db.patch`). -/
def DB.patchCall (db : DB) (callId : Nat) (f : CallDoc → CallDoc) : DB :=
  { db with calls := db.calls.map (fun c => if c.id = callId then f c else c) }

/-- Handler of the `endCall` mutation (convex/calls.ts lines 32-56): requires
an authenticated caller who owns the call, then patches status, duration and
`endedAt`. -/
def endCallMutation (auth : Option String) (callId : Nat) (duration : Int)
    (now : Int) (db : DB) : Except String (DB × Nat) :=
  match auth with
  | none => .error "Not authenticated"
  | some userId =>
    match db.getCall callId with
    | none => .error "Call not found or unauthorized"
    | some call =>
      if call.userId = userId then
        .ok (db.patchCall callId (fun c =>
              { c with status := "completed", duration := duration,
                       endedAt := some now }),
             callId)
      else .error "Call not found or unauthorized"

/-- Handler of the internal `updateCallSummary` mutation (convex/calls.ts
lines 58-82): patches the summary fields of a call, no auth check;
`summaryText` is the falsy-filtered space join of title, summary, key points
and action items. -/
def updateCallSummaryMutation (callId : Nat) (summary : String)
    (keyPoints actionItems : List String) (title : String) (db : DB) : DB :=
  db.patchCall callId (fun c =>
    { c with summary := some summary, keyPoints := some keyPoints,
             actionItems := some actionItems, title := title,
             summaryText :=
               String.intercalate " "
                 (([title, summary] ++ keyPoints ++ actionItems).filter
                   (fun s => s ≠ "")) })

/-- One invocation of a state-changing backend operation, with the caller's
authentication and the wall clock as explicit inputs. -/
inductive DbOp where
  | startCall (auth : Option String) (primary secondary : String) (now : Int)
  | endCall (auth : Option String) (callId : Nat) (duration : Int) (now : Int)
  | addTranscript (auth : Option String) (args : AddTranscriptArgs) (now : Int)
  | updateCallSummary (callId : Nat) (summary : String)
      (keyPoints actionItems : List String) (title : String)

/-- Apply one operation; a mutation that throws rolls back (state unchanged). -/
def applyOp (db : DB) : DbOp → DB
  | .startCall auth p s now =>
    match startCallMutation auth p s now db with
    | .ok (db2, _) => db2
    | .error _ => db
  | .endCall auth callId duration now =>
    match endCallMutation auth callId duration now db with
    | .ok (db2, _) => db2
    | .error _ => db
  | .addTranscript auth args now =>
    match addTranscriptMutation auth args now db with
    | .ok (db2, _) => db2
    | .error _ => db
  | .updateCallSummary callId summary keyPoints actionItems title =>
    updateCallSummaryMutation callId summary keyPoints actionItems title db

/-- Run a sequence of backend operations from a starting state. -/
def runOps (db : DB) (ops : List DbOp) : DB :=
  ops.foldl applyOp db

/-- Ownership invariant: every transcript's `userId` equals the `userId` of
its (existing) parent call. -/
def OwnershipInvariant (db : DB) : Prop :=
  ∀ t ∈ db.transcripts, ∃ c ∈ db.calls, c.id = t.callId ∧ c.userId = t.userId

/-! ### Session negotiator (`convex/realtime.ts`) -/

/-- Mirror of `getNestedValue` (convex/realtime.ts lines 9-10) lifted over the
possibly-`undefined` input of a chained access: records yield the named
property, anything else yields `undefined`. -/
def getNested (v : Option Json) (k : String) : Option Json :=
  match v with
  | some j => if isRecord j then j.getProp k else none
  | none => none

/-- Mirror of `getString` (convex/realtime.ts lines 12-13). -/
def getStringVal : Option Json → Option String
  | some (.str s) => some s
  | _ => none

/-- Mirror of `getNumber` (convex/realtime.ts lines 15-16). -/
def getNumberVal : Option Json → Option Int
  | some (.num n) => some n
  | _ => none

/-- Mirror of `buildInterpreterPrompt` (convex/realtime.ts lines 18-43). -/
def buildInterpreterPrompt (primaryLanguage secondaryLanguage : String) :
    String :=
  "# Role & Objective\n" ++
  "You are a live interpreter between " ++ primaryLanguage ++ " and " ++
  secondaryLanguage ++ ".\n" ++
  "Your job is to translate EVERYTHING the speaker says in the current turn.\n\n" ++
  "# Instructions / Rules\n" ++
  "- Translate the FULL utterance, not just the last sentence or clause.\n" ++
  "- Preserve the original order of sentences and meaning.\n" ++
  "- Do not summarize, omit, or compress. Translate all sentences.\n" ++
  "- Output only the translation, no commentary.\n" ++
  "- If you are interrupted mid-translation, resume and restate the unfinished part before translating the new input.\n\n" ++
  "# Output Formatting\n" ++
  "- If the speaker uses multiple sentences, output multiple sentences in the translation.\n" ++
  "- Keep sentence boundaries clear (use punctuation, not line breaks).\n\n" ++
  "# Examples (use as pattern, do not copy verbatim)\n" ++
  "Input (" ++ primaryLanguage ++ "): “Ich komme heute später. Der Zug ist verspätet.”\n" ++
  "Output (" ++ secondaryLanguage ++ "): “I’ll be late today. The train is delayed.”\n\n" ++
  "Input (" ++ secondaryLanguage ++ "): “We should meet at five. Also, bring the documents.”\n" ++
  "Output (" ++ primaryLanguage ++ "): “Wir sollten uns um fünf treffen. Bring außerdem die Dokumente mit.”"

/-- The session configuration assembled by the action and echoed back to the
client (convex/realtime.ts lines 61-73). -/
structure SessionConfig where
  sessionType : String
  model : String
  instructions : String
  outputVoice : String
deriving DecidableEq, Repr

/-- The failure cases of `createRealtimeSession`, each thrown as an `Error`
whose message carries the recorded data. -/
inductive RealtimeError where
  | notAuthenticated
  | missingApiKey
  | credentialRequestFailed (status : Nat) (body : String)
  | missingClientSecret (data : Json)

/-- The action's successful return value (convex/realtime.ts lines 114-118). -/
structure RealtimeSessionResult where
  clientSecret : String
  expiresAt : Option Int
  session : SessionConfig
deriving DecidableEq, Repr

/-- The credential-issuance HTTP response as the action consumes it: the `ok`
flag and status, the text body (read on failure), and the JSON body (read on
success). -/
structure HttpResponse where
  ok : Bool
  status : Nat
  bodyText : String
  bodyJson : Json

/-- The ordered probe for the client secret (convex/realtime.ts lines 95-99):
`client_secret.value`, then top-level `value`, then top-level `client_secret`,
joined by nullish coalescing. -/
def probeClientSecret (data : Json) : Option String :=
  match getStringVal (getNested (getNested (some data) "client_secret") "value") with
  | some s => some s
  | none =>
    match getStringVal (getNested (some data) "value") with
    | some s => some s
    | none => getStringVal (getNested (some data) "client_secret")

/-- The ordered probe for the expiry (convex/realtime.ts lines 100-106). -/
def probeExpiresAt (data : Json) : Option Int :=
  match getNumberVal (getNested (getNested (some data) "client_secret") "expires_at") with
  | some n => some n
  | none =>
    match getNumberVal (getNested (some data) "expires_at") with
    | some n => some n
    | none =>
      getNumberVal (getNested (getNested (some data) "client_secret") "expiresAt")

/-- Handler of the `createRealtimeSession` action (convex/realtime.ts lines
45-120).  The caller's identity, the server API key, and the HTTP response the
credential-issuance POST would produce are explicit inputs.  A falsy probed
secret (absent, or present but the empty string, which is falsy under the
`if (!clientSecret)` guard) fails with `missingClientSecret`. -/
def createRealtimeSession (identity : Option String) (apiKey : Option String)
    (primaryLanguage secondaryLanguage : String) (voice : Option String)
    (resp : HttpResponse) : Except RealtimeError RealtimeSessionResult :=
  match identity with
  | none => .error .notAuthenticated
  | some _ =>
    match apiKey with
    | none => .error .missingApiKey
    | some _ =>
      let session : SessionConfig :=
        ⟨"realtime", "gpt-realtime",
         buildInterpreterPrompt primaryLanguage secondaryLanguage,
         voice.getD "marin"⟩
      if !resp.ok then
        .error (.credentialRequestFailed resp.status resp.bodyText)
      else
        let data := resp.bodyJson
        let clientSecret := probeClientSecret data
        let expiresAt := probeExpiresAt data
        match clientSecret with
        | none => .error (.missingClientSecret data)
        | some s =>
          if s = "" then .error (.missingClientSecret data)
          else .ok ⟨s, expiresAt, session⟩

/-! ### Peer-connection teardown and end-call flow (`CallInterface.tsx`) -/

/-- A local media track: its `readyState` (stopped or live) and `enabled`
flag. -/
structure Track where
  stopped : Bool
  enabled : Bool
deriving DecidableEq, Repr

/-- The connection-state React state of the component. -/
inductive ConnState where
  | idle
  | connecting
  | connected
  | error
deriving DecidableEq, Repr

/-- The mutable session resources of the component: the three refs the
teardown touches, and the React states it resets. -/
structure SessionRefs where
  dataChannel : Option Bool
  peerConnection : Option Bool
  localStream : Option (List Track)
  connectionState : ConnState
  isMuted : Bool
  needsAudioResume : Bool
  hasStartedTimer : Bool
  intervalActive : Bool
  isEndingCall : Bool
deriving DecidableEq, Repr

/-- An externally observable resource-release action performed by teardown. -/
inductive TeardownAction where
  | closeDataChannel
  | closePeerConnection
  | stopTrack (index : Nat)
deriving DecidableEq, Repr

/-- Mirror of `stopRealtimeSession` (CallInterface.tsx lines 200-224): close
and null the data channel, close and null the peer connection, stop every
local track and null the stream, reset the connection state to idle, unmute,
clear the resume flag, clear the timer-start flag, clear the interval.  The
`isEndingCall` ref is raised for the duration of the close (suppressing the
channel's `onclose` error path) and lowered again before returning.  The
returned list records the release actions actually performed. -/
def stopRealtimeSession (st : SessionRefs) :
    SessionRefs × List TeardownAction :=
  let channelActs : List TeardownAction :=
    match st.dataChannel with
    | some _ => [.closeDataChannel]
    | none => []
  let pcActs : List TeardownAction :=
    match st.peerConnection with
    | some _ => [.closePeerConnection]
    | none => []
  let trackActs : List TeardownAction :=
    match st.localStream with
    | some tracks => (List.range tracks.length).map .stopTrack
    | none => []
  (⟨none, none, none, .idle, false, false, false, false, false⟩,
   channelActs ++ pcActs ++ trackActs)

/-- The fully torn-down resource state `stopRealtimeSession` always leaves. -/
def tornDownRefs : SessionRefs :=
  ⟨none, none, none, .idle, false, false, false, false, false⟩

/-- State of the end-call flow: the session resources, the displayed call
duration, and logs of the observable effects (release actions, `endCall`
persistence writes, summary requests, UI notifications). -/
structure CallFlowState where
  refs : SessionRefs
  callDuration : Int
  teardownActions : List TeardownAction
  endCallWrites : List Int
  summaryRequests : Nat
  endNotifications : Nat
deriving DecidableEq, Repr

/-- Mirror of `endCallFlow` (CallInterface.tsx lines 628-642) in the run where
the `endCall` mutation succeeds: tear down the session, persist the current
call duration, fire the summary generation, notify the UI.  Nothing in the
component guards this flow against being entered again. -/
def endCallFlow (st : CallFlowState) : CallFlowState :=
  let (refs2, acts) := stopRealtimeSession st.refs
  { st with
    refs := refs2,
    teardownActions := st.teardownActions ++ acts,
    endCallWrites := st.endCallWrites ++ [st.callDuration],
    summaryRequests := st.summaryRequests + 1,
    endNotifications := st.endNotifications + 1 }

/-! ### Call timer (`CallInterface.tsx` lines 103-137)

The `useEffect` keyed on `connectionState`, reduced to a state machine: a
`setState` event is the effect re-running after a connection-state change (its
cleanup having cleared any live interval first), and a `tick` event is one
firing of the active one-second interval. -/

/-- The timer-relevant component state: connection state, the one-shot
`hasStartedTimerRef`, `startTimeRef`, the displayed `callDuration`, and
whether an interval is currently scheduled. -/
structure TimerState where
  connectionState : ConnState
  hasStartedTimer : Bool
  startTime : Int
  callDuration : Int
  intervalActive : Bool
deriving DecidableEq, Repr

/-- The timer state on mount (`startTimeRef = Date.now()` at mount time). -/
def TimerState.initial (mountTime : Int) : TimerState :=
  ⟨.idle, false, mountTime, 0, false⟩

/-- An event driving the timer machine. -/
inductive TimerEvent where
  | setState (s : ConnState) (now : Int)
  | tick (now : Int)
deriving DecidableEq, Repr

/-- One step of the timer machine.  On a state change away from `connected`
the interval is cleared and the duration left as is; on a change to
`connected` the one-shot flag arms the start time (only the first time) and
the interval is (re)started; each tick of an active interval recomputes
`callDuration = Math.floor((now - startTime) / 1000)`. -/
def timerStep (st : TimerState) : TimerEvent → TimerState
  | .setState s now =>
    if s ≠ .connected then
      { st with connectionState := s, intervalActive := false }
    else
      let st1 :=
        if st.hasStartedTimer then st
        else { st with hasStartedTimer := true, startTime := now,
                       callDuration := 0 }
      { st1 with connectionState := .connected, intervalActive := true }
  | .tick now =>
    if st.intervalActive then
      { st with callDuration := (now - st.startTime).fdiv 1000 }
    else st

/-- Run the timer machine over a sequence of events. -/
def runTimer (st : TimerState) (events : List TimerEvent) : TimerState :=
  events.foldl timerStep st

/-! ### ICE-gathering wait (`CallInterface.tsx` lines 165-198)

`waitForIceGatheringComplete` resolves immediately when gathering is already
complete; otherwise it registers a 5000 ms `setTimeout` and an
`icegatheringstatechange` listener, and whichever fires first resolves the
promise and deregisters the other.  Under the single-threaded event loop this
reduces to: the resolve time is the completion time if gathering completes
before the deadline, else the deadline. -/

/-- The wall-clock time at which the ICE wait resolves, given the start time,
whether `iceGatheringState` is already `"complete"`, and the time (if any) at
which gathering becomes complete. -/
def iceWaitResolveTime (start : Int) (alreadyComplete : Bool)
    (completionAt : Option Int) : Int :=
  if alreadyComplete then start
  else
    match completionAt with
    | some t => if t < start + 5000 then t else start + 5000
    | none => start + 5000

/-- After the wait resolves, `startRealtimeSession` (CallInterface.tsx lines
519-535) posts the local SDP exactly once; the returned list is the times of
the signaling POSTs of one connection attempt. -/
def offerPostTimes (start : Int) (alreadyComplete : Bool)
    (completionAt : Option Int) : List Int :=
  [iceWaitResolveTime start alreadyComplete completionAt]

/-! ### Concrete runs and small helpers used by the statements below -/

/-- Concatenation of a list of fragments in arrival order. -/
def concatAll : List String → String
  | [] => ""
  | d :: ds => d ++ concatAll ds

/-- Process a list of well-formed messages at a fixed wall-clock time. -/
def runMsgs (st : ClassifierState) (msgs : List Json) (now : Int) :
    ClassifierState :=
  msgs.foldl (fun s m => handleMessage s (wire m) now) st

/-- State after an audio-transcript delta `"foo"` for response id `"A"`. -/
def keyChangeState1 : ClassifierState :=
  handleMessage ClassifierState.initial (wire (audioDelta "A" "foo")) 10

/-- State after a further audio-transcript delta `"bar"` for response id
`"B"`, before any done event for `"A"`. -/
def keyChangeState2 : ClassifierState :=
  handleMessage keyChangeState1 (wire (audioDelta "B" "bar")) 20

/-- State after a subsequent done event for response id `"A"` with no inline
text. -/
def keyChangeState3 : ClassifierState :=
  handleMessage keyChangeState2 (wire (audioDone "A")) 30

/-- A connected call mid-flight: open data channel, live peer connection, one
live microphone track, 42 seconds on the clock, no effects logged yet. -/
def connectedFlowState : CallFlowState :=
  ⟨⟨some true, some true, some [⟨false, true⟩], .connected, false, false,
    true, true, false⟩, 42, [], [], 0, 0⟩

/-- Timer state after mount (time 0), first `connected` at time 0, and a tick
at time 1000: one second on the clock. -/
def timerRun1 : TimerState :=
  runTimer (TimerState.initial 0)
    [.setState .connected 0, .tick 1000]

/-- The previous run continued: the connection regresses to `error` at time
2000, a stray tick fires at 3000 (the interval was cleared, so nothing
advances), and the transport recovers to `connected` at time 10000. -/
def timerRun2 : TimerState :=
  runTimer timerRun1
    [.setState .error 2000, .tick 3000, .setState .connected 10000]

/-- The recovered run after one more tick at time 11000. -/
def timerRun3 : TimerState :=
  timerStep timerRun2 (.tick 11000)

/-- The message-type strings on which the handler can change state; every
other `type` value falls through every branch without mutating anything. -/
def mutatingTypes : List String :=
  ["response.output_text.delta", "input_audio_transcript.delta",
   "response.output_audio_transcript.delta",
   "response.output_audio_transcript.done",
   "conversation.item.added", "conversation.item.done"]

/-- Whether the probed client secret is truthy: some secret was found under a
known nesting shape and it is not the empty string (which the `if
(!clientSecret)` guard treats as missing). -/
def secretFound (data : Json) : Bool :=
  match probeClientSecret data with
  | some s => if s = "" then false else true
  | none => false

/-- A timer event that is not a transition into `connected`. -/
def nonConnectedEvent : TimerEvent → Prop
  | .setState s _ => s ≠ .connected
  | .tick _ => True

/-- A successful credential-issuance response whose body nests the secret and
expiry under `client_secret`, the first probed shape. -/
def sampleCredentialResponse : HttpResponse :=
  ⟨true, 200, "",
   .obj [("client_secret",
     .obj [("value", .str "ephemeral-secret"), ("expires_at", .num 42)])]⟩

/-! ## Theorems -/

/-- C7: teardown is idempotent and total.  From any session state, one
teardown yields the fixed observable end state — connection state `idle`, no
local media stream, no data channel, no peer connection — and a second
teardown applied to that state yields the same state again while performing no
further release actions; as a total Lean function it throws nothing. -/
theorem teardown_idempotent_total (st : SessionRefs) :
    (stopRealtimeSession st).1 = tornDownRefs ∧
    stopRealtimeSession (stopRealtimeSession st).1 = (tornDownRefs, []) ∧
    tornDownRefs.connectionState = .idle ∧
    tornDownRefs.localStream = none ∧
    tornDownRefs.dataChannel = none ∧
    tornDownRefs.peerConnection = none :=
  ⟨rfl, rfl, rfl, rfl, rfl, rfl⟩

/-- C3 counterexample: invoking the end-call flow twice on a connected call
issues the duration-persistence write twice — `endCallFlow` is not guarded by
any single-shot flag, so the claim's "persistence write is issued at most
once" fails. -/
theorem double_end_call_persists_twice :
    (endCallFlow connectedFlowState).endCallWrites = [42] ∧
    (endCallFlow (endCallFlow connectedFlowState)).endCallWrites = [42, 42] :=
  ⟨rfl, rfl⟩

/-- C3 amended: repeated end-call invocations release resources at most once
(the second teardown finds every ref already null and performs no release
action), but each invocation issues its own call-duration persistence write;
no single-shot flag suppresses the second write. -/
theorem end_call_releases_once_but_persists_each_time (st : CallFlowState) :
    (endCallFlow st).refs = tornDownRefs ∧
    (endCallFlow (endCallFlow st)).teardownActions =
      (endCallFlow st).teardownActions ∧
    (endCallFlow (endCallFlow st)).endCallWrites =
      st.endCallWrites ++ [st.callDuration, st.callDuration] := by
  refine ⟨rfl, ?_, ?_⟩
  · simp [endCallFlow, stopRealtimeSession]
  · simp [endCallFlow]

/-- C8: the ICE-gathering wait resolves at the start time when gathering is
already complete, at the completion time when gathering completes before the
5-second deadline, at the deadline when gathering never completes, and in
every case no later than start + 5000 ms; the SDP offer is posted exactly
once, at the resolve time. -/
theorem ice_wait_bounded (start : Int) (alreadyComplete : Bool)
    (completionAt : Option Int) :
    iceWaitResolveTime start alreadyComplete completionAt ≤ start + 5000 ∧
    (alreadyComplete = true →
      iceWaitResolveTime start alreadyComplete completionAt = start) ∧
    (∀ t : Int, alreadyComplete = false → completionAt = some t →
      t < start + 5000 →
      iceWaitResolveTime start alreadyComplete completionAt = t) ∧
    (alreadyComplete = false → completionAt = none →
      iceWaitResolveTime start alreadyComplete completionAt = start + 5000) ∧
    offerPostTimes start alreadyComplete completionAt =
      [iceWaitResolveTime start alreadyComplete completionAt] := by
  refine ⟨?_, ?_, ?_, ?_, rfl⟩
  · unfold iceWaitResolveTime
    cases alreadyComplete with
    | false =>
      cases completionAt with
      | none => simp
      | some t => simp only [Bool.false_eq_true, if_false]; split <;> omega
    | true => simp
  · intro h; subst h; simp [iceWaitResolveTime]
  · intro t ha hc hlt; subst ha; subst hc
    simp [iceWaitResolveTime, hlt]
  · intro ha hc; subst ha; subst hc; simp [iceWaitResolveTime]

/-- C8 witness: with gathering not yet complete at start time 0 and completing
at 1200 ms, the wait resolves at 1200 ms, within the 5000 ms bound, and one
offer post happens. -/
theorem ice_wait_bounded_witness :
    iceWaitResolveTime 0 false (some 1200) ≤ 0 + 5000 ∧
    iceWaitResolveTime 0 false (some 1200) = 1200 ∧
    offerPostTimes 0 false (some 1200) =
      [iceWaitResolveTime 0 false (some 1200)] := by
  have h := ice_wait_bounded 0 false (some 1200)
  exact ⟨h.1, h.2.2.1 1200 rfl rfl (by norm_num), h.2.2.2.2⟩

/-- C1: after a `conversation.item.done` message whose assistant item carries
content `[{type: "output_text", text: "Hola"}]`, exactly one transcript entry
with text `"Hola"` exists and exactly one `addTranscript` write is issued —
but the issued payload `{callId, originalText, timestamp}` is rejected by the
`addTranscript` mutation's declared argument validator (which requires
`speaker`, `originalLanguage`, `translatedText` and `translatedLanguage` and
declares no `timestamp` argument), so the entry is not persisted. -/
theorem hola_done_entry_created_but_write_rejected :
    (handleMessage ClassifierState.initial (wire holaDoneMessage) 1700).transcripts
      = [⟨"Hola", 1700⟩] ∧
    (handleMessage ClassifierState.initial (wire holaDoneMessage) 1700).addTranscriptCalls
      = [⟨"Hola", 1700⟩] ∧
    validateArgs addTranscriptArgSpec
      (clientAddTranscriptArgs 0 ⟨"Hola", 1700⟩) = false :=
  ⟨rfl, rfl, rfl⟩

/-- C2 counterexample: the classifier does not hold two independent buffers.
After a delta `"foo"` for key `"A"` followed by a delta `"bar"` for key `"B"`
(before any done for `"A"`), the entire classifier state is the single buffer
`"bar"` — `"A"`'s partial content `"foo"` has been discarded, and the
subsequent done for `"A"` finalizes `"B"`'s content `"bar"`. -/
theorem key_change_discards_previous_buffer :
    keyChangeState2 =
      ⟨some ⟨"bar", 20⟩, "bar", some "B", [], []⟩ ∧
    keyChangeState3.transcripts = [⟨"bar", 30⟩] ∧
    keyChangeState3.addTranscriptCalls = [⟨"bar", 30⟩] :=
  ⟨rfl, rfl, rfl⟩

/-- C4 counterexample: time spent outside `connected` is counted after all.
Connected at 0 ms, ticked at 1000 ms (duration 1 s), regressed to `error` at
2000 ms, idle until the transport recovers at 10000 ms (duration still 1 s,
the pause), one tick later at 11000 ms the duration is 11 s — the 8 seconds
spent outside `connected` entered the counter, because the start time is
never adjusted on re-entry. -/
theorem timer_counts_time_spent_outside_connected :
    timerRun1.callDuration = 1 ∧
    timerRun2.callDuration = 1 ∧
    timerRun3.callDuration = 11 :=
  ⟨rfl, rfl, rfl⟩

/-- Helper: one `response.output_audio_transcript.delta` message whose key is
already the accumulating one appends its non-empty fragment to the buffer and
mirrors it into the partial transcript. -/
theorem audioDelta_step_same_key (k d : String) (st : ClassifierState)
    (now : Int) (h : st.outputTranscriptResponseId = some k) :
    handleMessage st (wire (audioDelta k d)) now =
      if d = "" then st
      else { st with outputTranscript := st.outputTranscript ++ d,
                     partialEntry := some ⟨st.outputTranscript ++ d, now⟩ } := by
  by_cases hd : d = ""
  · subst hd
    simp [handleMessage, wire, parseRealtimeMessage, audioDelta,
      isRecord, Json.getProp, handlePayload, handleAudioDelta, Json.getStr,
      List.lookup, Option.getD]
  · by_cases hk : k = ""
    · subst hk
      simp [handleMessage, wire, parseRealtimeMessage, audioDelta,
        isRecord, Json.getProp, handlePayload, handleAudioDelta, Json.getStr,
        extractResponseId, extractResponseId.fallbackId, hd, List.lookup,
        Option.getD]
    · simp [handleMessage, wire, parseRealtimeMessage, audioDelta,
        isRecord, Json.getProp, handlePayload, handleAudioDelta, Json.getStr,
        extractResponseId, extractResponseId.fallbackId, hd, hk, h, List.lookup,
        Option.getD]



/-- Helper: a `response.output_audio_transcript.done` message with no inline
`transcript` or `text` clears both refs and, when the accumulated buffer is
non-empty, finalizes it into exactly one entry and one persistence call. -/
theorem audioDone_step (k : String) (st : ClassifierState) (t : Int) :
    handleMessage st (wire (audioDone k)) t =
      if st.outputTranscript = "" then
        { st with outputTranscript := "", outputTranscriptResponseId := none }
      else
        { st with partialEntry := none, outputTranscript := "",
                  outputTranscriptResponseId := none,
                  transcripts := st.transcripts ++ [⟨st.outputTranscript, t⟩],
                  addTranscriptCalls :=
                    st.addTranscriptCalls ++ [⟨st.outputTranscript, t⟩] } := by
  by_cases hk : k = ""
  · subst hk
    simp [handleMessage, wire, parseRealtimeMessage, audioDone,
      isRecord, Json.getProp, handlePayload, handleAudioDone, Json.getStr,
      extractResponseId, extractResponseId.fallbackId, List.lookup, Option.getD]
  · by_cases hrid : st.outputTranscriptResponseId = some k
    · simp [handleMessage, wire, parseRealtimeMessage, audioDone,
        isRecord, Json.getProp, handlePayload, handleAudioDone, Json.getStr,
        extractResponseId, extractResponseId.fallbackId, hk, hrid, List.lookup,
        Option.getD]
    · simp [handleMessage, wire, parseRealtimeMessage, audioDone,
        isRecord, Json.getProp, handlePayload, handleAudioDone, Json.getStr,
        extractResponseId, extractResponseId.fallbackId, hk, hrid, List.lookup,
        Option.getD]

/-- Helper: a run of audio-transcript deltas sharing the accumulating key
appends their concatenation to the buffer and finalizes nothing. -/
theorem audioDelta_run_same_key (k : String) (ds : List String)
    (st : ClassifierState) (now : Int)
    (h : st.outputTranscriptResponseId = some k) :
    (runMsgs st (ds.map (audioDelta k)) now).outputTranscript =
        st.outputTranscript ++ concatAll ds ∧
    (runMsgs st (ds.map (audioDelta k)) now).outputTranscriptResponseId =
        some k ∧
    (runMsgs st (ds.map (audioDelta k)) now).transcripts = st.transcripts ∧
    (runMsgs st (ds.map (audioDelta k)) now).addTranscriptCalls =
        st.addTranscriptCalls := by
  induction ds generalizing st with
  | nil => simp [runMsgs, concatAll, h]
  | cons d ds ih =>
    simp only [List.map_cons, runMsgs, List.foldl_cons]
    rw [show (handleMessage st (wire (audioDelta k d)) now) = _ from
      audioDelta_step_same_key k d st now h]
    by_cases hd : d = ""
    · subst hd
      simpa [concatAll] using ih st h
    · rw [if_neg hd]
      have := ih { st with outputTranscript := st.outputTranscript ++ d,
                           partialEntry := some ⟨st.outputTranscript ++ d, now⟩ }
        (by simpa using h)
      simpa [concatAll, String.append_assoc] using this



/-- Helper: from a fresh buffer (no accumulating key), a run of
audio-transcript deltas with one key accumulates exactly their concatenation
and finalizes nothing; the key becomes current unless every fragment was
empty. -/
theorem audioDelta_run_fresh (k : String) (hk : k ≠ "") (ds : List String)
    (st : ClassifierState) (now : Int)
    (hrid : st.outputTranscriptResponseId = none)
    (hbuf : st.outputTranscript = "") :
    (runMsgs st (ds.map (audioDelta k)) now).outputTranscript = concatAll ds ∧
    ((runMsgs st (ds.map (audioDelta k)) now).outputTranscriptResponseId =
        some k ∨
      ((runMsgs st (ds.map (audioDelta k)) now).outputTranscriptResponseId =
          none ∧ concatAll ds = "")) ∧
    (runMsgs st (ds.map (audioDelta k)) now).transcripts = st.transcripts ∧
    (runMsgs st (ds.map (audioDelta k)) now).addTranscriptCalls =
        st.addTranscriptCalls := by
  induction ds generalizing st with
  | nil => simp [runMsgs, concatAll, hrid, hbuf]
  | cons d ds ih =>
    by_cases hd : d = ""
    · subst hd
      have step : handleMessage st (wire (audioDelta k "")) now = st := by
        simp [handleMessage, wire, parseRealtimeMessage, audioDelta,
          isRecord, Json.getProp, handlePayload, handleAudioDelta, Json.getStr,
          List.lookup, Option.getD]
      simp only [List.map_cons, runMsgs, List.foldl_cons, step]
      have := ih st hrid hbuf
      simpa [runMsgs, concatAll] using this
    · have step : handleMessage st (wire (audioDelta k d)) now =
          { st with outputTranscript := d,
                    outputTranscriptResponseId := some k,
                    partialEntry := some ⟨d, now⟩ } := by
        simp [handleMessage, wire, parseRealtimeMessage, audioDelta,
          isRecord, Json.getProp, handlePayload, handleAudioDelta, Json.getStr,
          extractResponseId, extractResponseId.fallbackId, hd, hk, hrid, hbuf,
          List.lookup, Option.getD]
      simp only [List.map_cons, runMsgs, List.foldl_cons, step]
      have := audioDelta_run_same_key k ds
        { st with outputTranscript := d,
                  outputTranscriptResponseId := some k,
                  partialEntry := some ⟨d, now⟩ } now (by simp)
      simp only [runMsgs] at this
      refine ⟨?_, Or.inl this.2.1, this.2.2.1, this.2.2.2⟩
      simpa [concatAll] using this.1



/-- C6: a sequence of delta events sharing one coalescing key followed by one
done event for that key that carries no inline transcript or text creates
exactly one transcript entry (and one persistence call) whose text is the
concatenation of the delta fragments in arrival order. -/
theorem delta_coalescing_single_entry (k : String) (ds : List String)
    (st : ClassifierState) (t1 t2 : Int) (hk : k ≠ "")
    (hrid : st.outputTranscriptResponseId = none)
    (hbuf : st.outputTranscript = "") (hne : concatAll ds ≠ "") :
    (handleMessage (runMsgs st (ds.map (audioDelta k)) t1)
        (wire (audioDone k)) t2).transcripts =
      st.transcripts ++ [⟨concatAll ds, t2⟩] ∧
    (handleMessage (runMsgs st (ds.map (audioDelta k)) t1)
        (wire (audioDone k)) t2).addTranscriptCalls =
      st.addTranscriptCalls ++ [⟨concatAll ds, t2⟩] := by
  obtain ⟨h1, _h2, h3, h4⟩ := audioDelta_run_fresh k hk ds st t1 hrid hbuf
  rw [audioDone_step k _ t2, if_neg (by rw [h1]; exact hne)]
  exact ⟨by rw [h3, h1], by rw [h4, h1]⟩

/-- C6 witness: deltas `["Hel", "lo wor", "ld"]` then done yield the single
entry `"Hello world"`. -/
theorem delta_coalescing_single_entry_witness :
    concatAll ["Hel", "lo wor", "ld"] = "Hello world" ∧
    (handleMessage (runMsgs ClassifierState.initial
        (["Hel", "lo wor", "ld"].map (audioDelta "resp_1")) 5)
        (wire (audioDone "resp_1")) 9).transcripts =
      [⟨"Hello world", 9⟩] := by
  have h := delta_coalescing_single_entry "resp_1" ["Hel", "lo wor", "ld"]
    ClassifierState.initial 5 9 (by decide) rfl rfl (by decide)
  exact ⟨rfl, by simpa using h.1⟩



/-- C2 amended: the classifier keeps a single accumulating buffer, not one
per key.  A delta whose key `b` differs from the currently accumulating key
discards the previous partial content and starts a fresh buffer for `b`;
finalizing `b` then emits exactly the content accumulated since that reset —
so it never emits the earlier key's partial content, which is dropped rather
than kept in an independent buffer. -/
theorem new_key_delta_resets_buffer_done_emits_only_new
    (st : ClassifierState) (b d : String) (ds : List String) (t1 t2 t3 : Int)
    (hb : b ≠ "") (hd : d ≠ "")
    (hdiff : st.outputTranscriptResponseId ≠ some b) :
    (handleMessage st (wire (audioDelta b d)) t1).outputTranscript = d ∧
    (handleMessage st (wire (audioDelta b d)) t1).outputTranscriptResponseId =
      some b ∧
    (handleMessage st (wire (audioDelta b d)) t1).transcripts =
      st.transcripts ∧
    (handleMessage (runMsgs (handleMessage st (wire (audioDelta b d)) t1)
        (ds.map (audioDelta b)) t2) (wire (audioDone b)) t3).transcripts =
      st.transcripts ++ [⟨d ++ concatAll ds, t3⟩] ∧
    (handleMessage (runMsgs (handleMessage st (wire (audioDelta b d)) t1)
        (ds.map (audioDelta b)) t2) (wire (audioDone b)) t3).addTranscriptCalls =
      st.addTranscriptCalls ++ [⟨d ++ concatAll ds, t3⟩] := by
  have step : handleMessage st (wire (audioDelta b d)) t1 =
      { st with outputTranscript := d,
                outputTranscriptResponseId := some b,
                partialEntry := some ⟨d, t1⟩ } := by
    simp [handleMessage, wire, parseRealtimeMessage, audioDelta,
      isRecord, Json.getProp, handlePayload, handleAudioDelta, Json.getStr,
      extractResponseId, extractResponseId.fallbackId, hd, hb, hdiff,
      List.lookup, Option.getD]
  rw [step]
  have run := audioDelta_run_same_key b ds
    { st with outputTranscript := d, outputTranscriptResponseId := some b,
              partialEntry := some ⟨d, t1⟩ } t2 (by simp)
  have hne : d ++ concatAll ds ≠ "" := by
    intro hcontra
    apply hd
    have : (d ++ concatAll ds).data = "".data := by rw [hcontra]
    simp at this
    exact String.ext this.1
  rw [audioDone_step b _ t3, if_neg (by rw [run.1]; simpa using hne)]
  refine ⟨rfl, rfl, rfl, ?_, ?_⟩
  · rw [run.2.2.1, run.1]
  · rw [run.2.2.2, run.1]



/-- C9: non-string data, invalid JSON, JSON that is not an object, objects
without a string `type`, and recognized-shape objects with an unrecognized
`type` all leave the classifier state unchanged (and, as total functions,
throw nothing); consequently any later well-formed message is processed
exactly as if the malformed one had never arrived. -/
theorem malformed_and_unknown_messages_are_no_ops
    (st : ClassifierState) (now : Int) :
    handleMessage st .binary now = st ∧
    handleMessage st (.text none) now = st ∧
    (∀ j : Json, isRecord j = false → handleMessage st (.text (some j)) now = st) ∧
    (∀ j : Json, (∀ s : String, j.getProp "type" ≠ some (.str s)) →
      handleMessage st (.text (some j)) now = st) ∧
    (∀ (j : Json) (ty : String), j.getProp "type" = some (.str ty) →
      ty ∉ mutatingTypes → handleMessage st (.text (some j)) now = st) ∧
    (∀ (bad good : WireData) (t1 t2 : Int), handleMessage st bad t1 = st →
      handleMessage (handleMessage st bad t1) good t2 =
        handleMessage st good t2) := by
  refine ⟨rfl, rfl, ?_, ?_, ?_, ?_⟩
  · intro j hj
    simp [handleMessage, parseRealtimeMessage, hj]
  · intro j hj
    cases hty : j.getProp "type" with
    | none => simp [handleMessage, parseRealtimeMessage, hty]
    | some v =>
      cases v with
      | str s => exact absurd hty (hj s)
      | _ => simp [handleMessage, parseRealtimeMessage, hty]
  · intro j ty hty hmem
    simp only [mutatingTypes, List.mem_cons, List.not_mem_nil, or_false,
      not_or] at hmem
    obtain ⟨h1, h2, h3, h4, h5, h6⟩ := hmem
    simp only [handleMessage, parseRealtimeMessage, hty]
    cases hrec : isRecord j with
    | false => rfl
    | true =>
      simp only [if_true]
      simp only [handlePayload, hty, h1, h2, h3, h4, h5, h6]
      by_cases haudio : ty = "response.output_audio.delta"
      · simp [haudio]
      · simp only [haudio, if_false, handleItemTail]
        cases hitem : j.getProp "item" with
        | none => rfl
        | some item =>
          cases hreci : isRecord item with
          | false => simp [hreci]
          | true => simp [hreci, h5, h6]
  · intro bad good t1 t2 hb
    rw [hb]



/-- Helper: timer events that never enter `connected` preserve a zero,
unstarted, interval-free timer. -/
theorem timer_nonconnected_run (evs : List TimerEvent) :
    ∀ st : TimerState, st.callDuration = 0 → st.hasStartedTimer = false →
      st.intervalActive = false → (∀ e ∈ evs, nonConnectedEvent e) →
      (runTimer st evs).callDuration = 0 ∧
      (runTimer st evs).hasStartedTimer = false ∧
      (runTimer st evs).intervalActive = false := by
  induction evs with
  | nil => intro st h1 h2 h3 _; exact ⟨h1, h2, h3⟩
  | cons e evs ih =>
    intro st h1 h2 h3 hev
    have he := hev e (List.mem_cons_self e evs)
    have hrest := fun e h => hev e (List.mem_cons_of_mem _ h)
    cases e with
    | setState s now =>
      have hs : s ≠ .connected := he
      exact ih (timerStep st (.setState s now))
        (by simp [timerStep, hs, h1]) (by simp [timerStep, hs, h2])
        (by simp [timerStep, hs]) hrest
    | tick now =>
      exact ih (timerStep st (.tick now))
        (by simp [timerStep, h3, h1]) (by simp [timerStep, h3, h2])
        (by simp [timerStep, h3]) hrest

/-- C4 amended: the call timer starts counting only upon the first
transition into `connected` (runs that never reach `connected` keep duration
0 and the one-shot flag unset); when the state regresses away from
`connected` the interval is cleared, so the displayed duration stops
advancing and retains its value; but the start time is never adjusted on
re-entering `connected`, so the next tick computes
`floor((now - firstStart) / 1000)`, which includes the time spent outside
`connected`. -/
theorem timer_starts_once_pauses_but_resumes_from_first_start :
    (∀ (m : Int) (evs : List TimerEvent), (∀ e ∈ evs, nonConnectedEvent e) →
      (runTimer (TimerState.initial m) evs).callDuration = 0 ∧
      (runTimer (TimerState.initial m) evs).hasStartedTimer = false) ∧
    (∀ (st : TimerState) (s : ConnState) (now : Int), s ≠ .connected →
      (timerStep st (.setState s now)).callDuration = st.callDuration ∧
      (timerStep st (.setState s now)).startTime = st.startTime ∧
      (timerStep st (.setState s now)).intervalActive = false) ∧
    (∀ (st : TimerState) (now : Int), st.intervalActive = false →
      timerStep st (.tick now) = st) ∧
    (∀ (st : TimerState) (now : Int), st.hasStartedTimer = true →
      (timerStep st (.setState .connected now)).startTime = st.startTime ∧
      (timerStep st (.setState .connected now)).callDuration =
        st.callDuration ∧
      (timerStep st (.setState .connected now)).intervalActive = true) ∧
    (∀ (st : TimerState) (now : Int), st.intervalActive = true →
      (timerStep st (.tick now)).callDuration =
        (now - st.startTime).fdiv 1000) := by
  refine ⟨?_, ?_, ?_, ?_, ?_⟩
  · intro m evs hev
    have h := timer_nonconnected_run evs (TimerState.initial m) rfl rfl rfl hev
    exact ⟨h.1, h.2.1⟩
  · intro st s now hs
    refine ⟨by simp [timerStep, hs], by simp [timerStep, hs],
      by simp [timerStep, hs]⟩
  · intro st now h
    simp [timerStep, h]
  · intro st now h
    refine ⟨by simp [timerStep, h], by simp [timerStep, h],
      by simp [timerStep, h]⟩
  · intro st now h
    simp [timerStep, h]




/-- C5: with an authenticated caller and a configured API key,
`createRealtimeSession` succeeds exactly when the credential-issuance
response is a success and a truthy client secret is found by the ordered
probe (`client_secret.value`, then `value`, then `client_secret`); a
non-success response fails carrying its status and body, a success response
without a probed secret fails carrying the raw body, and on success the
result is the first probed secret, the probed optional expiry, and the echoed
session configuration. -/
theorem createRealtimeSession_failure_modes
    (uid key p s : String) (voice : Option String) (resp : HttpResponse) :
    (createRealtimeSession (some uid) (some key) p s voice resp).isOk =
      (resp.ok && secretFound resp.bodyJson) ∧
    (resp.ok = false →
      createRealtimeSession (some uid) (some key) p s voice resp =
        .error (.credentialRequestFailed resp.status resp.bodyText)) ∧
    (resp.ok = true → secretFound resp.bodyJson = false →
      createRealtimeSession (some uid) (some key) p s voice resp =
        .error (.missingClientSecret resp.bodyJson)) ∧
    (∀ sec : String, resp.ok = true →
      probeClientSecret resp.bodyJson = some sec → sec ≠ "" →
      createRealtimeSession (some uid) (some key) p s voice resp =
        .ok ⟨sec, probeExpiresAt resp.bodyJson,
             ⟨"realtime", "gpt-realtime", buildInterpreterPrompt p s,
              voice.getD "marin"⟩⟩) := by
  refine ⟨?_, ?_, ?_, ?_⟩
  · cases hok : resp.ok with
    | false => simp [createRealtimeSession, hok, Except.isOk, Except.toBool]
    | true =>
      cases hp : probeClientSecret resp.bodyJson with
      | none => simp [createRealtimeSession, hok, hp, secretFound, Except.isOk, Except.toBool]
      | some sec =>
        by_cases hs : sec = ""
        · simp [createRealtimeSession, hok, hp, hs, secretFound, Except.isOk, Except.toBool]
        · simp [createRealtimeSession, hok, hp, hs, secretFound, Except.isOk, Except.toBool]
  · intro hok
    simp [createRealtimeSession, hok]
  · intro hok hsf
    cases hp : probeClientSecret resp.bodyJson with
    | none => simp [createRealtimeSession, hok, hp]
    | some sec =>
      have hs : sec = "" := by
        by_contra hne
        simp [secretFound, hp, hne] at hsf
      subst hs
      simp [createRealtimeSession, hok, hp]
  · intro sec hok hp hs
    simp [createRealtimeSession, hok, hp, hs]

/-- C5 witness: a 200 response nesting the secret under
`client_secret.value` yields that secret, the nested expiry, and the echoed
configuration. -/
theorem createRealtimeSession_failure_modes_witness :
    createRealtimeSession (some "user-1") (some "api-key") "English" "Spanish"
        none sampleCredentialResponse =
      .ok ⟨"ephemeral-secret", some 42,
           ⟨"realtime", "gpt-realtime",
            buildInterpreterPrompt "English" "Spanish", "marin"⟩⟩ := by
  have h := createRealtimeSession_failure_modes "user-1" "api-key"
    "English" "Spanish" none sampleCredentialResponse
  exact (h.2.2.2 "ephemeral-secret" rfl rfl (by decide)).trans rfl



/-- Helper: patching calls with an id- and owner-preserving function
preserves the ownership invariant. -/
theorem ownership_patchCall (db : DB) (callId : Nat) (f : CallDoc → CallDoc)
    (hid : ∀ c, (f c).id = c.id) (huid : ∀ c, (f c).userId = c.userId)
    (h : OwnershipInvariant db) : OwnershipInvariant (db.patchCall callId f) := by
  intro t ht
  obtain ⟨c, hc, hcid, hcuid⟩ := h t ht
  refine ⟨if c.id = callId then f c else c, ?_, ?_, ?_⟩
  · exact List.mem_map_of_mem _ hc
  · split
    · rw [hid c]; exact hcid
    · exact hcid
  · split
    · rw [huid c]; exact hcuid
    · exact hcuid

/-- Helper: every backend operation preserves the ownership invariant. -/
theorem ownership_applyOp (db : DB) (op : DbOp) (h : OwnershipInvariant db) :
    OwnershipInvariant (applyOp db op) := by
  cases op with
  | startCall auth p s now =>
    cases auth with
    | none => exact h
    | some uid =>
      intro t ht
      obtain ⟨c, hc, h1, h2⟩ := h t ht
      exact ⟨c, by simp [applyOp, startCallMutation]; exact Or.inl hc, h1, h2⟩
  | endCall auth callId dur now =>
    cases auth with
    | none => exact h
    | some uid =>
      cases hget : db.getCall callId with
      | none => simpa [applyOp, endCallMutation, hget] using h
      | some call =>
        by_cases hu : call.userId = uid
        · have : applyOp db (.endCall (some uid) callId dur now) =
              db.patchCall callId (fun c =>
                { c with status := "completed", duration := dur,
                         endedAt := some now }) := by
            simp [applyOp, endCallMutation, hget, hu]
          rw [this]
          exact ownership_patchCall db callId _ (fun c => rfl) (fun c => rfl) h
        · simpa [applyOp, endCallMutation, hget, hu] using h
  | addTranscript auth args now =>
    cases auth with
    | none => exact h
    | some uid =>
      cases hget : db.getCall args.callId with
      | none => simpa [applyOp, addTranscriptMutation, hget] using h
      | some call =>
        by_cases hu : call.userId = uid
        · have hdb : applyOp db (.addTranscript (some uid) args now) =
              { db with nextId := db.nextId + 1,
                        transcripts := db.transcripts ++
                          [⟨args.callId, uid, now, args.speaker,
                            args.originalText, args.originalLanguage,
                            args.translatedText, args.translatedLanguage,
                            args.confidence⟩] } := by
            simp [applyOp, addTranscriptMutation, hget, hu]
          rw [hdb]
          intro t ht
          rw [List.mem_append] at ht
          cases ht with
          | inl hold => exact h t hold
          | inr hnew =>
            have hcall_mem : call ∈ db.calls := List.mem_of_find?_eq_some hget
            have hcall_id : call.id = args.callId := by
              have := List.find?_some hget
              exact of_decide_eq_true this
            simp only [List.mem_singleton] at hnew
            subst hnew
            exact ⟨call, hcall_mem, hcall_id, hu⟩
        · simpa [applyOp, addTranscriptMutation, hget, hu] using h
  | updateCallSummary callId summary keyPoints actionItems title =>
    exact ownership_patchCall db callId _ (fun c => rfl) (fun c => rfl) h

/-- Helper: any sequence of backend operations preserves the ownership
invariant. -/
theorem ownership_runOps (ops : List DbOp) :
    ∀ db : DB, OwnershipInvariant db → OwnershipInvariant (runOps db ops) := by
  induction ops with
  | nil => intro db h; exact h
  | cons op ops ih =>
    intro db h
    exact ih (applyOp db op) (ownership_applyOp db op h)



/-- C10: in every database state reachable by the backend mutations from an
empty deployment, each transcript's `userId` equals the `userId` of its
parent call; `addTranscript` and `endCall` throw (leaving the database
unchanged) when the caller is unauthenticated or does not own the referenced
call. -/
theorem transcript_ownership_invariant :
    (∀ ops : List DbOp, OwnershipInvariant (runOps DB.empty ops)) ∧
    (∀ (args : AddTranscriptArgs) (now : Int) (db : DB),
      addTranscriptMutation none args now db = .error "Not authenticated") ∧
    (∀ (uid : String) (args : AddTranscriptArgs) (now : Int) (db : DB),
      (∀ c ∈ db.calls, c.id = args.callId → c.userId ≠ uid) →
      addTranscriptMutation (some uid) args now db =
        .error "Call not found or unauthorized") ∧
    (∀ (callId : Nat) (dur now : Int) (db : DB),
      endCallMutation none callId dur now db = .error "Not authenticated") ∧
    (∀ (uid : String) (callId : Nat) (dur now : Int) (db : DB),
      (∀ c ∈ db.calls, c.id = callId → c.userId ≠ uid) →
      endCallMutation (some uid) callId dur now db =
        .error "Call not found or unauthorized") := by
  refine ⟨?_, ?_, ?_, ?_, ?_⟩
  · intro ops
    refine ownership_runOps ops DB.empty ?_
    intro t ht
    simp [DB.empty] at ht
  · intro args now db; rfl
  · intro uid args now db hno
    cases hget : db.getCall args.callId with
    | none => simp [addTranscriptMutation, hget]
    | some call =>
      have hget2 := hget
      simp only [DB.getCall] at hget2
      have hmem := List.mem_of_find?_eq_some hget2
      have hcid : call.id = args.callId := by
        simpa using List.find?_some hget2
      simp [addTranscriptMutation, hget, hno call hmem hcid]
  · intro callId dur now db; rfl
  · intro uid callId dur now db hno
    cases hget : db.getCall callId with
    | none => simp [endCallMutation, hget]
    | some call =>
      have hget2 := hget
      simp only [DB.getCall] at hget2
      have hmem := List.mem_of_find?_eq_some hget2
      have hcid : call.id = callId := by
        simpa using List.find?_some hget2
      simp [endCallMutation, hget, hno call hmem hcid]

/-- C10 witness: a concrete run, Alice starting a call and adding a
transcript, satisfies the invariant, while an unauthenticated `addTranscript`
and an `endCall` by Mallory on Alice's call both fail with the recorded
errors. -/
theorem transcript_ownership_invariant_witness :
    OwnershipInvariant (runOps DB.empty
      [.startCall (some "alice") "English" "Spanish" 100,
       .addTranscript (some "alice")
         ⟨0, "user", "Hola", "Spanish", "Hello", "English", none⟩ 200]) ∧
    addTranscriptMutation none
        ⟨0, "user", "x", "a", "y", "b", none⟩ 5 DB.empty =
      .error "Not authenticated" ∧
    endCallMutation (some "mallory") 0 10 300
        (runOps DB.empty [.startCall (some "alice") "English" "Spanish" 100]) =
      .error "Call not found or unauthorized" := by
  have h := transcript_ownership_invariant
  refine ⟨h.1 _, h.2.1 _ 5 DB.empty, h.2.2.2.2 "mallory" 0 10 300 _ ?_⟩
  intro c hc hid
  simp [runOps, applyOp, startCallMutation, DB.empty] at hc
  subst hc
  decide

/-- C9 witness: the unknown-typed message
`{"type": "some.future.event", "foo": 1}` leaves the initial state
unchanged. -/
theorem malformed_and_unknown_messages_are_no_ops_witness :
    handleMessage ClassifierState.initial
        (.text (some (.obj [("type", .str "some.future.event"),
          ("foo", .num 1)]))) 0 =
      ClassifierState.initial := by
  have h := malformed_and_unknown_messages_are_no_ops ClassifierState.initial 0
  exact h.2.2.2.2.1 (.obj [("type", .str "some.future.event"), ("foo", .num 1)])
    "some.future.event" rfl (by decide)

/-- C2 witness: after the key-A delta `"foo"`, the key-B delta `"bar"`
resets the buffer, and finalizing B emits exactly `"bar"`. -/
theorem new_key_delta_resets_buffer_done_emits_only_new_witness :
    (handleMessage (runMsgs (handleMessage keyChangeState1
        (wire (audioDelta "B" "bar")) 20) (([] : List String).map (audioDelta "B")) 0)
        (wire (audioDone "B")) 30).transcripts =
      keyChangeState1.transcripts ++ [⟨"bar" ++ concatAll [], 30⟩] := by
  exact (new_key_delta_resets_buffer_done_emits_only_new keyChangeState1
    "B" "bar" [] 20 0 30 (by decide) (by decide) (by decide)).2.2.2.1

/-- C4 witness: concrete instances of each conjunct — a never-connected run
keeps duration 0; leaving `connected` retains the duration and start time
with the interval cleared; a tick without an interval changes nothing;
re-entering `connected` keeps the original start time; and the next tick
computes the full elapsed time since it. -/
theorem timer_starts_once_pauses_witness :
    (runTimer (TimerState.initial 0)
        [.setState .connecting 5, .tick 1000]).callDuration = 0 ∧
    (timerStep ⟨.connected, true, 0, 1, true⟩
        (.setState .error 2000)).callDuration = 1 ∧
    timerStep ⟨.error, true, 0, 1, false⟩ (.tick 3000) =
      ⟨.error, true, 0, 1, false⟩ ∧
    (timerStep ⟨.error, true, 0, 1, false⟩
        (.setState .connected 10000)).startTime = 0 ∧
    (timerStep ⟨.connected, true, 0, 1, true⟩ (.tick 11000)).callDuration =
      ((11000 : Int) - 0).fdiv 1000 := by
  have h := timer_starts_once_pauses_but_resumes_from_first_start
  refine ⟨(h.1 0 [.setState .connecting 5, .tick 1000] ?_).1,
    (h.2.1 ⟨.connected, true, 0, 1, true⟩ .error 2000 (by decide)).1,
    h.2.2.1 ⟨.error, true, 0, 1, false⟩ 3000 rfl,
    (h.2.2.2.1 ⟨.error, true, 0, 1, false⟩ 10000 rfl).1,
    h.2.2.2.2 ⟨.connected, true, 0, 1, true⟩ 11000 rfl⟩
  intro e he
  cases he with
  | head => exact (by decide : ConnState.connecting ≠ ConnState.connected)
  | tail _ h2 =>
    cases h2 with
    | head => trivial
    | tail _ h3 => cases h3

end LiveVoice
